import Mathlib

set_option maxRecDepth 10000

/-!
Verification of the OAuth 2.1 + PKCE authorization server from the
`09-oauth-authentication` example of the typescript-mcp-workshop repository.

The server keeps in-memory maps of clients, authorization codes and access
tokens, and exposes tools `startOAuthFlow`, `exchangeAuthCode`,
`introspectToken` and `revokeToken`.  We embed those operations as pure
functions over an explicit server state, model `crypto.createHash('sha256')`
by a full executable SHA-256 over `Nat` bytes, `digest('base64url')` by an
executable unpadded base64url encoder, and the `jsonwebtoken` library by an
injective constructor-based contract (`Tok.jwt payload secret`, verified by
secret equality).  Randomness (`crypto.randomBytes(...).toString('base64url')`)
and the clock (`Date.now()`) are passed in as explicit arguments.
-/

namespace OAuthServer

/-! ## SHA-256 over byte lists (bytes are `Nat` values `< 256`) -/

/-- Truncated 32-bit addition. -/
def add32 (a b : Nat) : Nat := (a + b) % 4294967296

/-- Rotate a 32-bit word right by `n`. -/
def rotr32 (n x : Nat) : Nat :=
  ((x >>> n) ||| (x <<< (32 - n))) % 4294967296

/-- SHA-256 small sigma 0. -/
def ssig0 (x : Nat) : Nat := (rotr32 7 x) ^^^ (rotr32 18 x) ^^^ (x >>> 3)

/-- SHA-256 small sigma 1. -/
def ssig1 (x : Nat) : Nat := (rotr32 17 x) ^^^ (rotr32 19 x) ^^^ (x >>> 10)

/-- SHA-256 big sigma 0. -/
def bsig0 (x : Nat) : Nat := (rotr32 2 x) ^^^ (rotr32 13 x) ^^^ (rotr32 22 x)

/-- SHA-256 big sigma 1. -/
def bsig1 (x : Nat) : Nat := (rotr32 6 x) ^^^ (rotr32 11 x) ^^^ (rotr32 25 x)

/-- SHA-256 choice function. -/
def ch (x y z : Nat) : Nat := (x &&& y) ^^^ ((x ^^^ 4294967295) &&& z)

/-- SHA-256 majority function. -/
def maj (x y z : Nat) : Nat := (x &&& y) ^^^ (x &&& z) ^^^ (y &&& z)

/-- The 64 SHA-256 round constants (FIPS 180-4, written in decimal). -/
def sha256K : List Nat :=
  [1116352408, 1899447441, 3049323471, 3921009573, 961987163,
   1508970993, 2453635748, 2870763221, 3624381080, 310598401,
   607225278, 1426881987, 1925078388, 2162078206, 2614888103,
   3248222580, 3835390401, 4022224774, 264347078, 604807628,
   770255983, 1249150122, 1555081692, 1996064986, 2554220882,
   2821834349, 2952996808, 3210313671, 3336571891, 3584528711,
   113926993, 338241895, 666307205, 773529912, 1294757372,
   1396182291, 1695183700, 1986661051, 2177026350, 2456956037,
   2730485921, 2820302411, 3259730800, 3345764771, 3516065817,
   3600352804, 4094571909, 275423344, 430227734, 506948616,
   659060556, 883997877, 958139571, 1322822218, 1537002063,
   1747873779, 1955562222, 2024104815, 2227730452, 2361852424,
   2428436474, 2756734187, 3204031479, 3329325298]

/-- The SHA-256 initial hash value (FIPS 180-4, written in decimal). -/
def sha256InitH : List Nat :=
  [1779033703, 3144134277, 1013904242, 2773480762, 1359893119,
   2600822924, 528734635, 1541459225]

/-- Pad a byte message per SHA-256: append 0x80, zeros, then the 64-bit
big-endian bit length, up to a multiple of 64 bytes. -/
def sha256Pad (msg : List Nat) : List Nat :=
  let len := msg.length
  let zeroCount := (64 - ((len + 9) % 64)) % 64
  let bitLen := len * 8
  msg ++ [0x80] ++ List.replicate zeroCount 0 ++
    [(bitLen >>> 56) &&& 255, (bitLen >>> 48) &&& 255,
     (bitLen >>> 40) &&& 255, (bitLen >>> 32) &&& 255,
     (bitLen >>> 24) &&& 255, (bitLen >>> 16) &&& 255,
     (bitLen >>> 8) &&& 255, bitLen &&& 255]

/-- The 16 big-endian 32-bit words of one 64-byte block. -/
def blockWords (block : List Nat) : List Nat :=
  (List.range 16).map fun i =>
    ((block.getD (4 * i) 0) <<< 24) ||| ((block.getD (4 * i + 1) 0) <<< 16) |||
      ((block.getD (4 * i + 2) 0) <<< 8) ||| (block.getD (4 * i + 3) 0)

/-- Extend 16 message-schedule words to 64. -/
def sha256Schedule (ws : Array Nat) : Array Nat :=
  (List.range 48).foldl
    (fun w i =>
      let t := i + 16
      w.push (add32 (add32 (ssig1 (w.getD (t - 2) 0)) (w.getD (t - 7) 0))
        (add32 (ssig0 (w.getD (t - 15) 0)) (w.getD (t - 16) 0))))
    ws

/-- One SHA-256 compression round on the eight working variables. -/
def sha256Round (st : List Nat) (k w : Nat) : List Nat :=
  let a := st.getD 0 0
  let b := st.getD 1 0
  let c := st.getD 2 0
  let d := st.getD 3 0
  let e := st.getD 4 0
  let f := st.getD 5 0
  let g := st.getD 6 0
  let h := st.getD 7 0
  let t1 := add32 (add32 (add32 h (bsig1 e)) (add32 (ch e f g) k)) w
  let t2 := add32 (bsig0 a) (maj a b c)
  [add32 t1 t2, a, b, c, add32 d t1, e, f, g]

/-- Compress one 64-byte block into the running hash. -/
def sha256Compress (h : List Nat) (block : List Nat) : List Nat :=
  let ws := sha256Schedule (Array.mk (blockWords block))
  let final := (List.range 64).foldl
    (fun st t => sha256Round st (sha256K.getD t 0) (ws.getD t 0)) h
  (List.range 8).map fun i => add32 (h.getD i 0) (final.getD i 0)

/-- SHA-256 of a byte message, as its 32 digest bytes. -/
def sha256 (msg : List Nat) : List Nat :=
  let padded := sha256Pad msg
  let nBlocks := padded.length / 64
  let finalH := (List.range nBlocks).foldl
    (fun h i => sha256Compress h ((padded.drop (64 * i)).take 64)) sha256InitH
  ((finalH.map fun w =>
    [w >>> 24, (w >>> 16) &&& 255, (w >>> 8) &&& 255, w &&& 255])).flatten

/-! ## UTF-8 and base64url -/

/-- The UTF-8 bytes of one code point. -/
def utf8EncodeCp (c : Nat) : List Nat :=
  if c < 0x80 then [c]
  else if c < 0x800 then
    [0xC0 ||| (c >>> 6), 0x80 ||| (c &&& 0x3F)]
  else if c < 0x10000 then
    [0xE0 ||| (c >>> 12), 0x80 ||| ((c >>> 6) &&& 0x3F), 0x80 ||| (c &&& 0x3F)]
  else
    [0xF0 ||| (c >>> 18), 0x80 ||| ((c >>> 12) &&& 0x3F),
     0x80 ||| ((c >>> 6) &&& 0x3F), 0x80 ||| (c &&& 0x3F)]

/-- The UTF-8 bytes of a string. -/
def utf8Bytes (s : String) : List Nat :=
  (s.data.map fun c => utf8EncodeCp c.toNat).flatten

/-- The base64url alphabet character for a 6-bit value. -/
def b64urlChar (n : Nat) : Char :=
  "ABCDEFGHIJKLMNOPQRSTUVWXYZabcdefghijklmnopqrstuvwxyz0123456789-_".data.getD n 'A'

/-- Unpadded base64url characters of a byte list (as Node's
`Buffer.toString('base64url')` produces). -/
def b64urlChars : List Nat → List Char
  | [] => []
  | [b0] => [b64urlChar (b0 >>> 2), b64urlChar ((b0 &&& 3) <<< 4)]
  | [b0, b1] =>
    [b64urlChar (b0 >>> 2), b64urlChar (((b0 &&& 3) <<< 4) ||| (b1 >>> 4)),
     b64urlChar ((b1 &&& 15) <<< 2)]
  | b0 :: b1 :: b2 :: rest =>
    b64urlChar (b0 >>> 2) :: b64urlChar (((b0 &&& 3) <<< 4) ||| (b1 >>> 4)) ::
      b64urlChar (((b1 &&& 15) <<< 2) ||| (b2 >>> 6)) :: b64urlChar (b2 &&& 63) ::
      b64urlChars rest

/-- `crypto.createHash('sha256').update(s).digest('base64url')`. -/
def sha256Base64url (s : String) : String :=
  String.mk (b64urlChars (sha256 (utf8Bytes s)))

/-! ## Data model

Mirrors the `OAuthClient`, `AuthorizationCode` and `AccessToken` interfaces of
the source.  `Date` values become `Nat` milliseconds; the three module-level
`Map`s become association lists inside an explicit `ServerState`. -/

/-- Payload of `jwt.sign({...}, JWT_SECRET)` in `generateAccessToken`. -/
structure JwtPayload where
  sub : String
  client_id : String
  scopes : List String
  iat : Nat
  exp : Nat
deriving DecidableEq, Repr

/-- A token string as the server manipulates it.  `jwt payload secret` stands
for the string `jwt.sign(payload, secret)` — the jsonwebtoken contract that
distinct payload/secret pairs sign to distinct strings, that a signed string
verifies only under its signing secret, and that a signed JWT string (three
dot-separated base64url segments with a signature) never coincides with a raw
random token string, is captured by the constructors being injective and
distinct.  `str s` is any other string (e.g. `crypto.randomBytes` output). -/
inductive Tok where
  | jwt (payload : JwtPayload) (secret : String)
  | str (s : String)
deriving DecidableEq, Repr

/-- `JWT_SECRET` from the source. -/
def JWT_SECRET : String := "dev-secret-key-change-in-production"

/-- `jwt.verify(token, secret)`: succeeds with the payload exactly when the
token was signed with this secret, throws (here: `none`) otherwise. -/
def jwtVerify (t : Tok) (secret : String) : Option JwtPayload :=
  match t with
  | .jwt p s => if s = secret then some p else none
  | .str _ => none

/-- The `OAuthClient` interface (`createdAt` omitted: never read). -/
structure OAuthClient where
  id : String
  name : String
  redirectUris : List String
  scopes : List String
deriving DecidableEq, Repr

/-- The `AuthorizationCode` interface. -/
structure AuthorizationCode where
  code : String
  clientId : String
  codeChallenge : String
  codeChallengeMethod : String
  redirectUri : String
  scopes : List String
  userId : String
  expiresAt : Nat
deriving DecidableEq, Repr

/-- The `AccessToken` interface. -/
structure AccessToken where
  token : Tok
  clientId : String
  userId : String
  scopes : List String
  expiresAt : Nat
  refreshToken : Option String
deriving DecidableEq, Repr

/-- Insertion-ordered map (`Map` in the source): update in place if the key is
present, else append — `Map.prototype.set` semantics. -/
def mapSet [DecidableEq α] (m : List (α × β)) (k : α) (v : β) : List (α × β) :=
  if m.any (fun e => e.1 = k) then
    m.map fun e => if e.1 = k then (k, v) else e
  else m ++ [(k, v)]

/-- `Map.prototype.get` on the association list. -/
def mapGet [DecidableEq α] (m : List (α × β)) (k : α) : Option β :=
  (m.find? fun e => e.1 = k).map Prod.snd

/-- `Map.prototype.delete` on the association list. -/
def mapDelete [DecidableEq α] (m : List (α × β)) (k : α) : List (α × β) :=
  m.filter fun e => ¬ e.1 = k

/-- The module-level mutable stores (`clients`, `authCodes`, `accessTokens`);
the `users` map only ever holds the demo user and is read by `getProtectedData`
only, so it stays implicit. -/
structure ServerState where
  clients : List (String × OAuthClient)
  authCodes : List (String × AuthorizationCode)
  accessTokens : List (Tok × AccessToken)
deriving DecidableEq, Repr

/-- The demo client seeded at startup. -/
def demoClient : OAuthClient :=
  { id := "demo-client-123"
    name := "Demo MCP Client"
    redirectUris := ["http://localhost:3000/callback", "mcp://auth/callback"]
    scopes := ["read", "write", "admin"] }

/-- The demo user id (`demoUser.id`), auto-logged-in by `startOAuthFlow`. -/
def demoUserId : String := "user-123"

/-- The stores right after module initialization. -/
def initialState : ServerState :=
  { clients := [(demoClient.id, demoClient)], authCodes := [], accessTokens := [] }

/-! ## Operations

Each tool's `execute` becomes a function from the state (plus explicit `now`
for `Date.now()` and explicit fresh random strings for `generateRandomString`)
to a result and the next state.  Result types list one constructor per
`return` site of the source, the `err...` ones for the returns whose string
starts with `Error:`. -/

/-- `verifyCodeChallenge` from the source. -/
def verifyCodeChallenge (codeVerifier codeChallenge method : String) : Bool :=
  if method = "S256" then
    sha256Base64url codeVerifier = codeChallenge
  else
    codeVerifier = codeChallenge

/-- `generateAccessToken` from the source: signs a JWT, builds the
`AccessToken` record with a fresh random refresh token, stores it under the
JWT string, returns it. -/
def generateAccessToken (s : ServerState) (now : Nat) (freshRefresh : String)
    (clientId userId : String) (scopes : List String) :
    AccessToken × ServerState :=
  let payload : JwtPayload :=
    { sub := userId, client_id := clientId, scopes := scopes
      iat := now / 1000, exp := now / 1000 + 3600 }
  let token := Tok.jwt payload JWT_SECRET
  let accessToken : AccessToken :=
    { token := token, clientId := clientId, userId := userId, scopes := scopes
      expiresAt := now + 3600 * 1000, refreshToken := some freshRefresh }
  (accessToken, { s with accessTokens := mapSet s.accessTokens token accessToken })

/-- Result of `startOAuthFlow.execute`. -/
inductive StartResult where
  | errInvalidClient
  | errInvalidRedirect
  | success (authCode : String)
deriving DecidableEq, Repr

/-- `startOAuthFlow.execute`: looks up the client, checks the redirect URI is
registered, then issues a fresh 10-minute authorization code bound to the
supplied PKCE challenge; no check relates the requested scopes to the
client's. -/
def startOAuthFlow (s : ServerState) (now : Nat) (freshCode : String)
    (clientId redirectUri : String) (scopes : List String)
    (codeChallenge codeChallengeMethod : String) :
    StartResult × ServerState :=
  match mapGet s.clients clientId with
  | none => (.errInvalidClient, s)
  | some client =>
    if redirectUri ∈ client.redirectUris then
      let authCodeData : AuthorizationCode :=
        { code := freshCode, clientId := clientId
          codeChallenge := codeChallenge
          codeChallengeMethod := codeChallengeMethod
          redirectUri := redirectUri, scopes := scopes
          userId := demoUserId, expiresAt := now + 10 * 60 * 1000 }
      (.success freshCode,
        { s with authCodes := mapSet s.authCodes freshCode authCodeData })
    else
      (.errInvalidRedirect, s)

/-- Result of `exchangeAuthCode.execute`. -/
inductive ExchangeResult where
  | errInvalidCode
  | errClientMismatch
  | errRedirectMismatch
  | errPkceFailed
  | success (tokenData : AccessToken)
deriving DecidableEq, Repr

/-- `exchangeAuthCode.execute`: sequential validation (code present and
unexpired, clientId equal, redirectUri equal, PKCE verifies), then mints an
access token and deletes the used code. -/
def exchangeAuthCode (s : ServerState) (now : Nat) (freshRefresh : String)
    (code clientId codeVerifier redirectUri : String) :
    ExchangeResult × ServerState :=
  match mapGet s.authCodes code with
  | none => (.errInvalidCode, s)
  | some authCodeData =>
    if authCodeData.expiresAt < now then (.errInvalidCode, s)
    else if ¬ authCodeData.clientId = clientId then (.errClientMismatch, s)
    else if ¬ authCodeData.redirectUri = redirectUri then (.errRedirectMismatch, s)
    else if ¬ verifyCodeChallenge codeVerifier authCodeData.codeChallenge
        authCodeData.codeChallengeMethod then
      (.errPkceFailed, s)
    else
      let (tokenData, s1) :=
        generateAccessToken s now freshRefresh clientId
          authCodeData.userId authCodeData.scopes
      (.success tokenData, { s1 with authCodes := mapDelete s1.authCodes code })

/-- Result of `introspectToken.execute` (the serialized JSON bodies). -/
inductive IntrospectResult where
  | inactive
  | active (client_id sub : String) (scopes : List String) (exp iat : Nat)
deriving DecidableEq, Repr

/-- `introspectToken.execute`: `{active:false}` when the token is not stored
or is expired or fails `jwt.verify` (the catch branch); otherwise the claims.
All paths return a value — no error is raised for an absent token. -/
def introspectToken (s : ServerState) (now : Nat) (token : Tok) :
    IntrospectResult :=
  match mapGet s.accessTokens token with
  | none => .inactive
  | some tokenData =>
    if tokenData.expiresAt < now then .inactive
    else
      match jwtVerify token JWT_SECRET with
      | none => .inactive
      | some decoded =>
        .active tokenData.clientId tokenData.userId tokenData.scopes
          decoded.exp decoded.iat

/-- Result of `revokeToken.execute`; none of the three returned strings starts
with `Error:`, so all three constructors are successful outcomes. -/
inductive RevokeResult where
  | revokedAccess
  | revokedRefresh
  | notFound
deriving DecidableEq, Repr

/-- The `for (const [accessToken, data] of accessTokens.entries())` scan of
`revokeToken.execute`: key of the first entry whose `refreshToken` field
equals the argument string. -/
def findRefreshKey (l : List (Tok × AccessToken)) (token : Tok) : Option Tok :=
  match l with
  | [] => none
  | (k, data) :: rest =>
    if (data.refreshToken.map Tok.str) = some token then some k
    else findRefreshKey rest token

/-- `revokeToken.execute`: delete the entry keyed by the token if present,
else delete the first entry whose refresh token matches, else report
not-found (still a success). -/
def revokeToken (s : ServerState) (token : Tok) :
    RevokeResult × ServerState :=
  match mapGet s.accessTokens token with
  | some _ =>
    (.revokedAccess, { s with accessTokens := mapDelete s.accessTokens token })
  | none =>
    match findRefreshKey s.accessTokens token with
    | some k =>
      (.revokedRefresh, { s with accessTokens := mapDelete s.accessTokens k })
    | none => (.notFound, s)

/-- Result of the refresh grant. -/
inductive RefreshResult where
  | errInvalidGrant
  | success (tokenData : AccessToken)
deriving DecidableEq, Repr

/-- The first store entry whose `refreshToken` field equals the presented
refresh-token string, with its key. -/
def findByRefresh (l : List (Tok × AccessToken)) (refreshToken : String) :
    Option (Tok × AccessToken) :=
  match l with
  | [] => none
  | (k, data) :: rest =>
    if data.refreshToken = some refreshToken then some (k, data)
    else findByRefresh rest refreshToken

/-- Modelled from the spec: the repository advertises the `refresh_token`
grant type in its discovery document but contains no refresh handler under
src/; this follows §4.4 of the spec — "looks up the refresh token; if
absent/expired, fails with `invalid_grant`. On success, invalidates the
presented refresh token and issues a brand-new access+refresh pair
(rotation)."  Expiry of the stored pair is the access-token entry's
`expiresAt`, the only expiry the store records. -/
def refreshGrant (s : ServerState) (now : Nat) (freshRefresh : String)
    (refreshToken : String) : RefreshResult × ServerState :=
  match findByRefresh s.accessTokens refreshToken with
  | none => (.errInvalidGrant, s)
  | some (k, data) =>
    if data.expiresAt < now then (.errInvalidGrant, s)
    else
      let s1 := { s with accessTokens := mapDelete s.accessTokens k }
      let (tokenData, s2) :=
        generateAccessToken s1 now freshRefresh data.clientId data.userId data.scopes
      (.success tokenData, s2)

/-- Whether a token string is a signed JWT (as opposed to a raw random
string): every key of `accessTokens` is one, since only
`generateAccessToken` inserts entries and it keys them by `jwt.sign`
output. -/
def Tok.isJwt : Tok → Bool
  | .jwt _ _ => true
  | .str _ => false

/-! ## Concrete fixtures for the witnesses -/

/-- An authorization code using the `plain` PKCE method. -/
def plainAuthCode : AuthorizationCode :=
  { code := "c1", clientId := "demo-client-123", codeChallenge := "v0"
    codeChallengeMethod := "plain"
    redirectUri := "http://localhost:3000/callback"
    scopes := ["read"], userId := "user-123", expiresAt := 600000 }

/-- A state holding the demo client and one pending `plain` code. -/
def fixtureState : ServerState :=
  { clients := [("demo-client-123", demoClient)]
    authCodes := [("c1", plainAuthCode)]
    accessTokens := [] }

/-- The access token minted when `plainAuthCode` is exchanged at `now = 0`
with fresh refresh string `r1`. -/
def fixtureToken : AccessToken :=
  { token := Tok.jwt
      { sub := "user-123", client_id := "demo-client-123", scopes := ["read"]
        iat := 0, exp := 3600 } JWT_SECRET
    clientId := "demo-client-123", userId := "user-123", scopes := ["read"]
    expiresAt := 3600000, refreshToken := some "r1" }

/-- The state after that successful exchange: code consumed, token stored. -/
def fixtureAfter : ServerState :=
  { clients := [("demo-client-123", demoClient)]
    authCodes := []
    accessTokens := [(fixtureToken.token, fixtureToken)] }

/-- `v2` differs from `v` in exactly one character position (same length). -/
def isSingleCharMutation (v v2 : String) : Prop :=
  ∃ pre c c2 suf, c ≠ c2 ∧ v.data = pre ++ c :: suf ∧ v2.data = pre ++ c2 :: suf

/-- An S256-method authorization code whose challenge is the RFC 7636
appendix-B value `base64url(SHA256("dBjftJeZ4CVP-mB92K27uhbUJU1p1r_wW1gFWFOEjXk"))`. -/
def s256AuthCode : AuthorizationCode :=
  { code := "c2", clientId := "demo-client-123"
    codeChallenge := "E9Melhoa2OwvFrEMTJguCHaoeK1t8URWbuGJSstw-cM"
    codeChallengeMethod := "S256"
    redirectUri := "http://localhost:3000/callback"
    scopes := ["read"], userId := "user-123", expiresAt := 600000 }

/-- A state holding the demo client and one pending S256 code. -/
def s256State : ServerState :=
  { clients := [("demo-client-123", demoClient)]
    authCodes := [("c2", s256AuthCode)]
    accessTokens := [] }

/-- Modelled from the spec: RFC 7636's code-verifier well-formedness
constraint, "43–128 characters from the unreserved URI character set
`[A-Za-z0-9\-._~]`".  The source's `verifyCodeChallenge` contains no such
check; this predicate only states the constraint the corrected claim refers
to. -/
def rfc7636ValidVerifier (v : String) : Bool :=
  43 ≤ v.length ∧ v.length ≤ 128 ∧
    v.data.all fun c => c.isAlphanum ∨ c = '-' ∨ c = '.' ∨ c = '_' ∨ c = '~'

/-- The authorization-code record `startOAuthFlow` mints for these inputs. -/
def issuedCode (now : Nat) (fresh cid ru : String) (scopes : List String)
    (ch m : String) : AuthorizationCode :=
  { code := fresh, clientId := cid, codeChallenge := ch,
    codeChallengeMethod := m, redirectUri := ru, scopes := scopes,
    userId := demoUserId, expiresAt := now + 10 * 60 * 1000 }

/-! ## Helper lemmas on the store operations -/

theorem mapGet_mapDelete_self [DecidableEq α] (m : List (α × β)) (k : α) :
    mapGet (mapDelete m k) k = none := by
  induction m with
  | nil => rfl
  | cons e rest ih =>
    by_cases hk : e.1 = k <;> simp [mapDelete, mapGet, hk] at ih ⊢

theorem mapGet_mapSet_self [DecidableEq α] (m : List (α × β)) (k : α) (v : β) :
    mapGet (mapSet m k v) k = some v := by
  unfold mapSet
  by_cases hmem : m.any (fun e => e.1 = k)
  · simp only [hmem, if_pos]
    induction m with
    | nil => simp at hmem
    | cons e rest ih =>
      by_cases hk : e.1 = k
      · simp [mapGet, hk]
      · simp only [List.any_cons, decide_eq_true_eq, hk, false_or] at hmem
        simpa [mapGet, hk] using ih hmem
  · simp only [hmem, if_neg, not_false_iff]
    induction m with
    | nil => simp [mapGet]
    | cons e rest ih =>
      simp only [List.any_cons, Bool.or_eq_true, decide_eq_true_eq, not_or] at hmem
      simpa [mapGet, hmem.1] using ih (by simpa using hmem.2)

theorem mapGet_eq_none_iff [DecidableEq α] (m : List (α × β)) (k : α) :
    mapGet m k = none ↔ ∀ e ∈ m, e.1 ≠ k := by
  induction m with
  | nil => simp [mapGet]
  | cons e rest ih =>
    by_cases hk : e.1 = k <;> simp [mapGet, hk] at ih ⊢

theorem mapGet_mapDelete_of_none [DecidableEq α] (m : List (α × β)) (k k' : α)
    (h : mapGet m k' = none) : mapGet (mapDelete m k) k' = none := by
  rw [mapGet_eq_none_iff] at h ⊢
  intro e he
  exact h e (List.mem_of_mem_filter he)

theorem mem_mapSet [DecidableEq α] (m : List (α × β)) (k : α) (v : β)
    (e : α × β) (he : e ∈ mapSet m k v) : e = (k, v) ∨ e ∈ m := by
  unfold mapSet at he
  split at he
  · rcases List.mem_map.mp he with ⟨x, hx, hxe⟩
    by_cases hk : x.1 = k
    · simp only [hk, if_pos] at hxe
      exact Or.inl hxe.symm
    · simp only [hk, if_neg, not_false_iff] at hxe
      exact Or.inr (hxe ▸ hx)
  · rcases List.mem_append.mp he with h | h
    · exact Or.inr h
    · simp at h
      exact Or.inl h

theorem mem_mapSet_self [DecidableEq α] (m : List (α × β)) (k : α) (v : β) :
    (k, v) ∈ mapSet m k v := by
  unfold mapSet
  by_cases h : (m.any fun e => decide (e.1 = k)) = true
  · rw [if_pos h]
    simp only [List.any_eq_true, decide_eq_true_eq] at h
    rcases h with ⟨x, hx, hxk⟩
    exact List.mem_map.mpr ⟨x, hx, by simp [hxk]⟩
  · rw [if_neg h]
    simp

/-! ## Characterization of `exchangeAuthCode` -/

theorem exchangeAuthCode_no_code (s : ServerState) (now : Nat)
    (fr code cid v ru : String) (h : mapGet s.authCodes code = none) :
    exchangeAuthCode s now fr code cid v ru = (.errInvalidCode, s) := by
  simp [exchangeAuthCode, h]

theorem exchangeAuthCode_expired (s : ServerState) (now : Nat)
    (fr code cid v ru : String) (acd : AuthorizationCode)
    (h : mapGet s.authCodes code = some acd) (hexp : acd.expiresAt < now) :
    exchangeAuthCode s now fr code cid v ru = (.errInvalidCode, s) := by
  simp [exchangeAuthCode, h, hexp]

theorem exchangeAuthCode_client_mismatch (s : ServerState) (now : Nat)
    (fr code cid v ru : String) (acd : AuthorizationCode)
    (h : mapGet s.authCodes code = some acd) (hexp : ¬ acd.expiresAt < now)
    (hcid : acd.clientId ≠ cid) :
    exchangeAuthCode s now fr code cid v ru = (.errClientMismatch, s) := by
  simp [exchangeAuthCode, h, hexp, hcid]

theorem exchangeAuthCode_redirect_mismatch (s : ServerState) (now : Nat)
    (fr code cid v ru : String) (acd : AuthorizationCode)
    (h : mapGet s.authCodes code = some acd) (hexp : ¬ acd.expiresAt < now)
    (hcid : acd.clientId = cid) (hru : acd.redirectUri ≠ ru) :
    exchangeAuthCode s now fr code cid v ru = (.errRedirectMismatch, s) := by
  simp [exchangeAuthCode, h, hexp, hcid, hru]

theorem exchangeAuthCode_pkce_fail (s : ServerState) (now : Nat)
    (fr code cid v ru : String) (acd : AuthorizationCode)
    (h : mapGet s.authCodes code = some acd) (hexp : ¬ acd.expiresAt < now)
    (hcid : acd.clientId = cid) (hru : acd.redirectUri = ru)
    (hv : ¬ verifyCodeChallenge v acd.codeChallenge acd.codeChallengeMethod) :
    exchangeAuthCode s now fr code cid v ru = (.errPkceFailed, s) := by
  simp [exchangeAuthCode, h, hexp, hcid, hru, hv]

theorem exchangeAuthCode_success (s : ServerState) (now : Nat)
    (fr code cid v ru : String) (acd : AuthorizationCode)
    (h : mapGet s.authCodes code = some acd) (hexp : ¬ acd.expiresAt < now)
    (hcid : acd.clientId = cid) (hru : acd.redirectUri = ru)
    (hv : verifyCodeChallenge v acd.codeChallenge acd.codeChallengeMethod) :
    exchangeAuthCode s now fr code cid v ru =
      (.success (generateAccessToken s now fr cid acd.userId acd.scopes).1,
        { (generateAccessToken s now fr cid acd.userId acd.scopes).2 with
            authCodes := mapDelete s.authCodes code }) := by
  simp [exchangeAuthCode, h, hexp, hcid, hru, hv, generateAccessToken]

theorem exchangeAuthCode_success_inv (s : ServerState) (now : Nat)
    (fr code cid v ru : String) (td : AccessToken) (s1 : ServerState)
    (h : exchangeAuthCode s now fr code cid v ru = (.success td, s1)) :
    mapGet s1.authCodes code = none := by
  unfold exchangeAuthCode at h
  cases hm : mapGet s.authCodes code with
  | none => simp [hm] at h
  | some acd =>
    simp only [hm] at h
    split_ifs at h with h1 h2 h3 h4
    all_goals
      first
        | exact ExchangeResult.noConfusion (congrArg Prod.fst h)
        | (have hs1 := congrArg Prod.snd h
           simp only [generateAccessToken] at hs1
           rw [← hs1]
           simpa using mapGet_mapDelete_self s.authCodes code)

theorem exchangeAuthCode_failure_inv (s : ServerState) (now : Nat)
    (fr code cid v ru : String) (r : ExchangeResult) (s1 : ServerState)
    (h : exchangeAuthCode s now fr code cid v ru = (r, s1))
    (hfail : ∀ td, r ≠ .success td) : s1 = s := by
  unfold exchangeAuthCode at h
  cases hm : mapGet s.authCodes code with
  | none =>
    simp only [hm] at h
    exact (congrArg Prod.snd h).symm
  | some acd =>
    simp only [hm] at h
    split_ifs at h with h1 h2 h3 h4
    all_goals
      first
        | exact (congrArg Prod.snd h).symm
        | (exfalso
           have hr := congrArg Prod.fst h
           simp only [generateAccessToken] at hr
           exact hfail _ hr.symm)



/-! ## Claim theorems -/

/-- C1: at most one `exchangeCode` call may succeed per authorization code:
after a successful exchange the code has been deleted from `authCodes`, so
every subsequent `exchangeAuthCode` call presenting the same code — whatever
the other arguments and the time — is rejected as an invalid/unknown code and
leaves the state unchanged. -/
theorem exchangeAuthCode_single_use (s : ServerState) (now : Nat)
    (fr code cid v ru : String) (td : AccessToken) (s1 : ServerState)
    (h : exchangeAuthCode s now fr code cid v ru = (.success td, s1)) :
    ∀ (now2 : Nat) (fr2 cid2 v2 ru2 : String),
      exchangeAuthCode s1 now2 fr2 code cid2 v2 ru2 = (.errInvalidCode, s1) := by
  intro now2 fr2 cid2 v2 ru2
  exact exchangeAuthCode_no_code _ _ _ _ _ _ _
    (exchangeAuthCode_success_inv _ _ _ _ _ _ _ _ _ h)

theorem exchangeAuthCode_single_use_witness :
    exchangeAuthCode fixtureState 0 "r1" "c1" "demo-client-123" "v0"
      "http://localhost:3000/callback" = (.success fixtureToken, fixtureAfter) ∧
    exchangeAuthCode fixtureAfter 1 "r2" "c1" "demo-client-123" "v0"
      "http://localhost:3000/callback" = (.errInvalidCode, fixtureAfter) :=
  ⟨by decide,
    exchangeAuthCode_single_use fixtureState 0 "r1" "c1" "demo-client-123" "v0"
      "http://localhost:3000/callback" fixtureToken fixtureAfter (by decide)
      1 "r2" "demo-client-123" "v0" "http://localhost:3000/callback"⟩

/-- C6: exchanging with a `redirectUri` that differs in any way (the
comparison is `!==` on the exact strings, so even a trailing slash) from the
one bound to the code at `startOAuthFlow` fails with the redirect-mismatch
error, leaves the whole state unchanged and in particular stores no token. -/
theorem exchangeAuthCode_redirect_exact (s : ServerState) (now : Nat)
    (fr code cid v ru : String) (acd : AuthorizationCode)
    (h : mapGet s.authCodes code = some acd) (hexp : ¬ acd.expiresAt < now)
    (hcid : acd.clientId = cid) (hru : acd.redirectUri ≠ ru) :
    exchangeAuthCode s now fr code cid v ru = (.errRedirectMismatch, s) ∧
    (exchangeAuthCode s now fr code cid v ru).2.accessTokens = s.accessTokens := by
  have hx : exchangeAuthCode s now fr code cid v ru = (.errRedirectMismatch, s) := by
    simp [exchangeAuthCode, h, hexp, hcid, hru]
  exact ⟨hx, by rw [hx]⟩

theorem exchangeAuthCode_redirect_exact_witness :
    exchangeAuthCode fixtureState 0 "r1" "c1" "demo-client-123" "v0"
      "http://localhost:3000/callback/" = (.errRedirectMismatch, fixtureState) :=
  (exchangeAuthCode_redirect_exact fixtureState 0 "r1" "c1" "demo-client-123" "v0"
    "http://localhost:3000/callback/" plainAuthCode (by decide) (by decide)
    (by decide) (by decide)).1

/-- C9: `exchangeAuthCode` is atomic on failure: every validation failure
(missing or expired code, client mismatch, redirect mismatch, PKCE failure)
returns before any store mutation, so the state is unchanged — the code is
not consumed, and a subsequent exchange of the same code with correct
parameters before expiry still succeeds. -/
theorem exchangeAuthCode_atomic_on_failure (s : ServerState) (now : Nat)
    (fr code cid v ru : String) (r : ExchangeResult) (s1 : ServerState)
    (hx : exchangeAuthCode s now fr code cid v ru = (r, s1))
    (hfail : ∀ td, r ≠ .success td) :
    s1 = s ∧
    ∀ (acd : AuthorizationCode) (now2 : Nat) (fr2 v2 : String),
      mapGet s.authCodes code = some acd → ¬ acd.expiresAt < now2 →
      verifyCodeChallenge v2 acd.codeChallenge acd.codeChallengeMethod →
      ∃ (td : AccessToken) (s2 : ServerState),
        exchangeAuthCode s1 now2 fr2 code acd.clientId v2 acd.redirectUri =
          (.success td, s2) := by
  have hs : s1 = s := exchangeAuthCode_failure_inv _ _ _ _ _ _ _ _ _ hx hfail
  refine ⟨hs, fun acd now2 fr2 v2 hget hexp hv => ?_⟩
  rw [hs]
  exact ⟨_, _, exchangeAuthCode_success s now2 fr2 code acd.clientId v2
    acd.redirectUri acd hget hexp rfl rfl hv⟩

theorem exchangeAuthCode_atomic_on_failure_witness :
    (exchangeAuthCode fixtureState 0 "r1" "c1" "demo-client-123" "wrong-verifier"
        "http://localhost:3000/callback").2 = fixtureState ∧
    ∃ (td : AccessToken) (s2 : ServerState),
      exchangeAuthCode fixtureState 0 "r1" "c1" "demo-client-123" "v0"
        "http://localhost:3000/callback" = (.success td, s2) := by
  have h := exchangeAuthCode_atomic_on_failure fixtureState 0 "r1" "c1"
    "demo-client-123" "wrong-verifier" "http://localhost:3000/callback"
    ExchangeResult.errPkceFailed fixtureState (by decide) (by intro td; simp)
  refine ⟨by decide, ?_⟩
  simpa using h.2 plainAuthCode 0 "r1" "v0" (by decide) (by decide) (by decide)





/-- C2: for a stored S256-method code, with matching clientId and redirectUri
and before expiry, `exchangeAuthCode` succeeds iff the base64url-encoded
SHA-256 digest of the supplied codeVerifier equals the stored codeChallenge;
consequently a single-character mutation of the verifier whose digest differs
from the original's makes the exchange fail with the PKCE error (SHA-256 is
collision-resistant, not injective, so the digest-difference side condition
is stated explicitly). -/
theorem exchangeAuthCode_pkce_s256 (s : ServerState) (now : Nat)
    (fr code cid v ru : String) (acd : AuthorizationCode)
    (h : mapGet s.authCodes code = some acd)
    (hmeth : acd.codeChallengeMethod = "S256")
    (hcid : acd.clientId = cid) (hru : acd.redirectUri = ru)
    (hexp : ¬ acd.expiresAt < now) :
    ((∃ td s1, exchangeAuthCode s now fr code cid v ru = (.success td, s1)) ↔
      sha256Base64url v = acd.codeChallenge) ∧
    (∀ v2 fr2, isSingleCharMutation v v2 →
      sha256Base64url v2 ≠ sha256Base64url v →
      sha256Base64url v = acd.codeChallenge →
      exchangeAuthCode s now fr2 code cid v2 ru = (.errPkceFailed, s)) := by
  constructor
  · constructor
    · rintro ⟨td, s1, hx⟩
      by_contra hne
      rw [exchangeAuthCode_pkce_fail s now fr code cid v ru acd h hexp hcid hru
        (by simp [verifyCodeChallenge, hmeth, hne])] at hx
      simp at hx
    · intro heq
      exact ⟨_, _, exchangeAuthCode_success s now fr code cid v ru acd h hexp
        hcid hru (by simp [verifyCodeChallenge, hmeth, heq])⟩
  · intro v2 fr2 _ hne heq
    refine exchangeAuthCode_pkce_fail s now fr2 code cid v2 ru acd h hexp hcid hru ?_
    simp only [verifyCodeChallenge, hmeth, if_pos, decide_eq_true_eq]
    exact fun hc => hne (hc.trans heq.symm)

theorem exchangeAuthCode_pkce_s256_witness :
    ((∃ td s1, exchangeAuthCode s256State 0 "r1" "c2" "demo-client-123"
        "dBjftJeZ4CVP-mB92K27uhbUJU1p1r_wW1gFWFOEjXk"
        "http://localhost:3000/callback" = (.success td, s1)) ↔
      sha256Base64url "dBjftJeZ4CVP-mB92K27uhbUJU1p1r_wW1gFWFOEjXk" =
        s256AuthCode.codeChallenge) ∧
    (∀ v2 fr2,
      isSingleCharMutation "dBjftJeZ4CVP-mB92K27uhbUJU1p1r_wW1gFWFOEjXk" v2 →
      sha256Base64url v2 ≠
        sha256Base64url "dBjftJeZ4CVP-mB92K27uhbUJU1p1r_wW1gFWFOEjXk" →
      sha256Base64url "dBjftJeZ4CVP-mB92K27uhbUJU1p1r_wW1gFWFOEjXk" =
        s256AuthCode.codeChallenge →
      exchangeAuthCode s256State 0 fr2 "c2" "demo-client-123" v2
        "http://localhost:3000/callback" = (.errPkceFailed, s256State)) :=
  exchangeAuthCode_pkce_s256 s256State 0 "r1" "c2" "demo-client-123"
    "dBjftJeZ4CVP-mB92K27uhbUJU1p1r_wW1gFWFOEjXk"
    "http://localhost:3000/callback" s256AuthCode (by decide) (by decide)
    (by decide) (by decide) (by decide)



/-- C4 counterexample: the two-character verifier `v0` is far outside the
43–128-character unreserved set required by RFC 7636, yet `exchangeAuthCode`
accepts it (the stored `plain` challenge equals it) and issues a token — so
the claim that invalid verifiers are rejected before hashing is false of the
code. -/
theorem exchangeAuthCode_short_verifier_accepted :
    rfc7636ValidVerifier "v0" = false ∧
    exchangeAuthCode fixtureState 0 "r1" "c1" "demo-client-123" "v0"
      "http://localhost:3000/callback" = (.success fixtureToken, fixtureAfter) :=
  ⟨by decide, by decide⟩

/-- C4 amended: `verifyCodeChallenge` applies no length or character-set
validation to the code verifier; for every verifier violating RFC 7636's
43–128 unreserved-charset constraint, a matching exchange still runs the
challenge comparison and succeeds exactly when it passes. -/
theorem exchangeAuthCode_no_verifier_validation (s : ServerState) (now : Nat)
    (fr code cid v ru : String) (acd : AuthorizationCode)
    (_hinv : rfc7636ValidVerifier v = false)
    (h : mapGet s.authCodes code = some acd) (hexp : ¬ acd.expiresAt < now)
    (hcid : acd.clientId = cid) (hru : acd.redirectUri = ru) :
    (∃ td s1, exchangeAuthCode s now fr code cid v ru = (.success td, s1)) ↔
      verifyCodeChallenge v acd.codeChallenge acd.codeChallengeMethod = true := by
  constructor
  · rintro ⟨td, s1, hx⟩
    by_contra hne
    rw [exchangeAuthCode_pkce_fail s now fr code cid v ru acd h hexp hcid hru
      (by simp [hne])] at hx
    simp at hx
  · intro hv
    exact ⟨_, _, exchangeAuthCode_success s now fr code cid v ru acd h hexp
      hcid hru hv⟩

theorem exchangeAuthCode_no_verifier_validation_witness :
    (∃ td s1, exchangeAuthCode fixtureState 0 "r1" "c1" "demo-client-123" "v0"
        "http://localhost:3000/callback" = (.success td, s1)) ↔
      verifyCodeChallenge "v0" plainAuthCode.codeChallenge
        plainAuthCode.codeChallengeMethod = true :=
  exchangeAuthCode_no_verifier_validation fixtureState 0 "r1" "c1"
    "demo-client-123" "v0" "http://localhost:3000/callback" plainAuthCode
    (by decide) (by decide) (by decide) (by decide) (by decide)



/-- When the client exists and the redirect URI is registered,
`startOAuthFlow` unconditionally succeeds and stores the new code verbatim. -/
theorem startOAuthFlow_success_eq (s : ServerState) (now : Nat)
    (fresh cid ru : String) (scopes : List String) (ch m : String)
    (client : OAuthClient) (hc : mapGet s.clients cid = some client)
    (hru : ru ∈ client.redirectUris) :
    startOAuthFlow s now fresh cid ru scopes ch m =
      (.success fresh,
        { s with
            authCodes := mapSet s.authCodes fresh (issuedCode now fresh cid ru scopes ch m) }) := by
  simp [startOAuthFlow, issuedCode, hc, hru]

/-- C5 counterexample: the demo client's allowed scopes are
`["read","write","admin"]`, and the scope `superadmin` lies outside them,
yet `startOAuthFlow` succeeds and binds `["superadmin"]` to the issued code —
no `invalid_scope` error exists, so the subset-check claim is false of the
code. -/
theorem startOAuthFlow_excess_scope_accepted :
    ("superadmin" ∉ demoClient.scopes) ∧
    (startOAuthFlow initialState 0 "ac1" "demo-client-123"
        "http://localhost:3000/callback" ["superadmin"] "ch" "S256").1 =
      .success "ac1" ∧
    mapGet (startOAuthFlow initialState 0 "ac1" "demo-client-123"
        "http://localhost:3000/callback" ["superadmin"] "ch" "S256").2.authCodes
        "ac1" =
      some { code := "ac1", clientId := "demo-client-123",
             codeChallenge := "ch", codeChallengeMethod := "S256",
             redirectUri := "http://localhost:3000/callback",
             scopes := ["superadmin"], userId := "user-123",
             expiresAt := 600000 } := by
  decide

/-- C5 amended: `startOAuthFlow` performs no scope validation at all — for
every registered client and every requested scope list (in particular lists
containing scopes outside the client's allowed set), given a registered
redirect URI it succeeds and binds the requested scopes verbatim to the
issued authorization code. -/
theorem startOAuthFlow_no_scope_check (s : ServerState) (now : Nat)
    (fresh cid ru : String) (scopes : List String) (ch m : String)
    (client : OAuthClient) (hc : mapGet s.clients cid = some client)
    (hru : ru ∈ client.redirectUris) :
    ∃ s1, startOAuthFlow s now fresh cid ru scopes ch m = (.success fresh, s1) ∧
      mapGet s1.authCodes fresh =
        some { code := fresh, clientId := cid, codeChallenge := ch,
               codeChallengeMethod := m, redirectUri := ru, scopes := scopes,
               userId := demoUserId, expiresAt := now + 10 * 60 * 1000 } := by
  refine ⟨_, startOAuthFlow_success_eq s now fresh cid ru scopes ch m client hc hru, ?_⟩
  simpa using mapGet_mapSet_self s.authCodes fresh _

theorem startOAuthFlow_no_scope_check_witness :
    ∃ s1, startOAuthFlow initialState 0 "ac1" "demo-client-123"
        "http://localhost:3000/callback" ["superadmin", "nuke"] "ch" "S256" =
        (.success "ac1", s1) ∧
      mapGet s1.authCodes "ac1" =
        some { code := "ac1", clientId := "demo-client-123",
               codeChallenge := "ch", codeChallengeMethod := "S256",
               redirectUri := "http://localhost:3000/callback",
               scopes := ["superadmin", "nuke"], userId := "user-123",
               expiresAt := 600000 } := by
  simpa using startOAuthFlow_no_scope_check initialState 0 "ac1"
    "demo-client-123" "http://localhost:3000/callback" ["superadmin", "nuke"]
    "ch" "S256" demoClient (by decide) (by decide)

/-- C10: `startOAuthFlow` never rejects a codeChallengeMethod — any method
string is accepted and stored verbatim on the issued code — and for every
method other than the exact string `S256` (e.g. `S512` or the empty string)
`verifyCodeChallenge` degrades to plain string equality of verifier and
challenge. -/
theorem codeChallengeMethod_unchecked (s : ServerState) (now : Nat)
    (fresh cid ru : String) (scopes : List String) (ch m : String)
    (client : OAuthClient) (hc : mapGet s.clients cid = some client)
    (hru : ru ∈ client.redirectUris) :
    (∃ s1 acd, startOAuthFlow s now fresh cid ru scopes ch m = (.success fresh, s1) ∧
      mapGet s1.authCodes fresh = some acd ∧ acd.codeChallengeMethod = m) ∧
    (∀ v c meth, meth ≠ "S256" → (verifyCodeChallenge v c meth = true ↔ v = c)) := by
  constructor
  · refine ⟨_, issuedCode now fresh cid ru scopes ch m,
      startOAuthFlow_success_eq s now fresh cid ru scopes ch m client hc hru,
      ?_, rfl⟩
    simpa using mapGet_mapSet_self s.authCodes fresh _
  · intro v c meth hne
    simp [verifyCodeChallenge, hne]

theorem codeChallengeMethod_unchecked_witness :
    (∃ s1 acd, startOAuthFlow initialState 0 "ac2" "demo-client-123"
        "mcp://auth/callback" ["read"] "ch" "S512" = (.success "ac2", s1) ∧
      mapGet s1.authCodes "ac2" = some acd ∧ acd.codeChallengeMethod = "S512") ∧
    (∀ v c meth, meth ≠ "S256" → (verifyCodeChallenge v c meth = true ↔ v = c)) :=
  codeChallengeMethod_unchecked initialState 0 "ac2" "demo-client-123"
    "mcp://auth/callback" ["read"] "ch" "S512" demoClient (by decide) (by decide)

/-- C7: `introspectToken` yields `{active:false}` for any token that is
absent from the store, expired, or not verifiable as a JWT signed with the
server secret — it is a total function, so no error is ever raised for an
absent token — and yields `active=true` with the token's claims exactly for
stored, unexpired, validly signed tokens. -/
theorem introspectToken_spec (s : ServerState) (now : Nat) (token : Tok) :
    (mapGet s.accessTokens token = none → introspectToken s now token = .inactive) ∧
    (∀ td, mapGet s.accessTokens token = some td → td.expiresAt < now →
      introspectToken s now token = .inactive) ∧
    (∀ td, mapGet s.accessTokens token = some td →
      jwtVerify token JWT_SECRET = none →
      introspectToken s now token = .inactive) ∧
    (∀ td p, mapGet s.accessTokens token = some td → ¬ td.expiresAt < now →
      jwtVerify token JWT_SECRET = some p →
      introspectToken s now token =
        .active td.clientId td.userId td.scopes p.exp p.iat) ∧
    (introspectToken s now token ≠ .inactive →
      ∃ td p, mapGet s.accessTokens token = some td ∧ ¬ td.expiresAt < now ∧
        jwtVerify token JWT_SECRET = some p) := by
  refine ⟨fun h => by simp [introspectToken, h],
    fun td h hexp => by simp [introspectToken, h, hexp],
    fun td h hv => by
      simp only [introspectToken, h]
      split_ifs with hexp
      · rfl
      · simp [hv],
    fun td p h hexp hv => by simp [introspectToken, h, hexp, hv],
    fun hact => ?_⟩
  cases hm : mapGet s.accessTokens token with
  | none => simp [introspectToken, hm] at hact
  | some td =>
    simp only [introspectToken, hm] at hact
    split_ifs at hact with hexp
    · simp at hact
    · cases hv : jwtVerify token JWT_SECRET with
      | none => simp [hv] at hact
      | some p => exact ⟨td, p, rfl, hexp, rfl⟩

theorem introspectToken_spec_witness :
    introspectToken fixtureAfter 0 (Tok.str "never-issued") = .inactive ∧
    introspectToken fixtureAfter 0 fixtureToken.token =
      .active "demo-client-123" "user-123" ["read"] 3600 0 :=
  ⟨(introspectToken_spec fixtureAfter 0 (Tok.str "never-issued")).1 (by decide),
    by
      have h := (introspectToken_spec fixtureAfter 0 fixtureToken.token).2.2.2.1
        fixtureToken
        { sub := "user-123", client_id := "demo-client-123"
          scopes := ["read"], iat := 0, exp := 3600 }
        (by decide) (by decide) (by decide)
      simpa using h⟩

/-! ## Revocation (C8) -/



theorem mapGet_mem [DecidableEq α] (m : List (α × β)) (k : α) (v : β)
    (h : mapGet m k = some v) : (k, v) ∈ m := by
  unfold mapGet at h
  cases hf : m.find? (fun e => decide (e.1 = k)) with
  | none => rw [hf] at h; simp at h
  | some e =>
    rw [hf] at h
    simp only [Option.map_some'] at h
    have hmem := List.mem_of_find?_eq_some hf
    have hp := List.find?_some hf
    simp only [decide_eq_true_eq] at hp
    obtain ⟨e1, e2⟩ := e
    simp only [Option.some.injEq] at h
    subst hp
    subst h
    exact hmem

theorem findRefreshKey_eq_none (l : List (Tok × AccessToken)) (t : Tok)
    (h : ∀ e ∈ l, ¬ (e.2.refreshToken.map Tok.str) = some t) :
    findRefreshKey l t = none := by
  induction l with
  | nil => rfl
  | cons e rest ih =>
    have he := h e (by simp)
    simp only [findRefreshKey, he, if_neg, not_false_iff]
    exact ih fun x hx => h x (by simp [hx])

theorem findRefreshKey_jwt (l : List (Tok × AccessToken)) (p : JwtPayload)
    (sec : String) : findRefreshKey l (Tok.jwt p sec) = none := by
  apply findRefreshKey_eq_none
  intro e _
  cases hr : e.2.refreshToken <;> simp [hr]

theorem findRefreshKey_mem (l : List (Tok × AccessToken)) (t k : Tok)
    (h : findRefreshKey l t = some k) : k ∈ l.map Prod.fst := by
  induction l with
  | nil => simp [findRefreshKey] at h
  | cons e rest ih =>
    by_cases hmatch : (e.2.refreshToken.map Tok.str) = some t
    · simp only [findRefreshKey, hmatch, if_pos, Option.some.injEq] at h
      simp [← h]
    · simp only [findRefreshKey, hmatch, if_neg, not_false_iff] at h
      simp [ih h]

theorem findRefreshKey_delete (l : List (Tok × AccessToken)) (t k : Tok)
    (hkeys : (l.map Prod.fst).Nodup)
    (hrefresh : (l.filterMap fun e => e.2.refreshToken).Nodup)
    (h : findRefreshKey l t = some k) :
    findRefreshKey (mapDelete l k) t = none := by
  induction l with
  | nil => simp [findRefreshKey] at h
  | cons e rest ih =>
    by_cases hmatch : (e.2.refreshToken.map Tok.str) = some t
    · simp only [findRefreshKey, hmatch, if_pos, Option.some.injEq] at h
      subst h
      cases hr : e.2.refreshToken with
      | none => simp [hr] at hmatch
      | some r =>
        rw [hr] at hmatch
        simp only [Option.map_some', Option.some.injEq] at hmatch
        have hnotin : r ∉ rest.filterMap fun x => x.2.refreshToken := by
          have := hrefresh
          rw [List.filterMap_cons, hr] at this
          exact (List.nodup_cons.mp this).1
        apply findRefreshKey_eq_none
        intro x hx hxt
        have hx_mem := List.mem_filter.mp hx
        have hx_ne : x.1 ≠ e.1 := by simpa using hx_mem.2
        have hx_rest : x ∈ rest := by
          rcases List.mem_cons.mp hx_mem.1 with heq | hr2
          · exact absurd (congrArg Prod.fst heq) hx_ne
          · exact hr2
        cases hxr : x.2.refreshToken with
        | none => simp [hxr] at hxt
        | some r2 =>
          rw [hxr] at hxt
          simp only [Option.map_some', Option.some.injEq] at hxt
          have : r2 = r := by
            have := hxt.trans hmatch.symm
            exact Tok.str.inj this
          subst this
          exact hnotin (List.mem_filterMap.mpr ⟨x, hx_rest, hxr⟩)
    · simp only [findRefreshKey, hmatch, if_neg, not_false_iff] at h
      have hk_rest : k ∈ rest.map Prod.fst := findRefreshKey_mem rest t k h
      have hek : ¬ e.1 = k := by
        intro hek
        exact (List.nodup_cons.mp hkeys).1 (hek ▸ hk_rest)
      have hdel : mapDelete (e :: rest) k = e :: mapDelete rest k := by
        simp [mapDelete, hek]
      rw [hdel]
      simp only [findRefreshKey, hmatch, if_neg, not_false_iff]
      exact ih (List.nodup_cons.mp hkeys).2
        (by
          rw [List.filterMap_cons] at hrefresh
          cases hr : e.2.refreshToken with
          | none => rwa [hr] at hrefresh
          | some r =>
            rw [hr] at hrefresh
            exact (List.nodup_cons.mp hrefresh).2) h

/-- C8: revocation is idempotent and never an error.  Every return of
`revokeToken` is a success (none of its three result strings starts with
`Error:`), and on any store whose keys are JWT strings with pairwise
distinct keys and pairwise distinct refresh-token values — as every store
built by `generateAccessToken` is — a second `revokeToken` with the same
token value is a no-op: it reports not-found/already-revoked and leaves the
state exactly as the first call left it. -/
theorem revokeToken_idempotent (s : ServerState) (t : Tok)
    (hjwt : ∀ e ∈ s.accessTokens, e.1.isJwt = true)
    (hkeys : (s.accessTokens.map Prod.fst).Nodup)
    (hrefresh : (s.accessTokens.filterMap fun e => e.2.refreshToken).Nodup) :
    revokeToken (revokeToken s t).2 t = (.notFound, (revokeToken s t).2) := by
  cases hg : mapGet s.accessTokens t with
  | some td =>
    have hmem : (t, td) ∈ s.accessTokens := mapGet_mem _ _ _ hg
    have htj : t.isJwt = true := hjwt _ hmem
    have h1 : revokeToken s t =
        (.revokedAccess, { s with accessTokens := mapDelete s.accessTokens t }) := by
      simp [revokeToken, hg]
    rw [h1]
    have hg2 : mapGet (mapDelete s.accessTokens t) t = none :=
      mapGet_mapDelete_self _ _
    cases t with
    | str str0 => simp [Tok.isJwt] at htj
    | jwt p sec =>
      have hf2 : findRefreshKey (mapDelete s.accessTokens (Tok.jwt p sec))
          (Tok.jwt p sec) = none := findRefreshKey_jwt _ _ _
      simp [revokeToken, hg2, hf2]
  | none =>
    cases hf : findRefreshKey s.accessTokens t with
    | none => simp [revokeToken, hg, hf]
    | some k =>
      have h1 : revokeToken s t =
          (.revokedRefresh, { s with accessTokens := mapDelete s.accessTokens k }) := by
        simp [revokeToken, hg, hf]
      rw [h1]
      have hg2 : mapGet (mapDelete s.accessTokens k) t = none :=
        mapGet_mapDelete_of_none _ _ _ hg
      have hf2 : findRefreshKey (mapDelete s.accessTokens k) t = none :=
        findRefreshKey_delete _ _ _ hkeys hrefresh hf
      simp [revokeToken, hg2, hf2]

theorem revokeToken_idempotent_witness :
    (revokeToken fixtureAfter fixtureToken.token).1 = .revokedAccess ∧
    revokeToken (revokeToken fixtureAfter fixtureToken.token).2
        fixtureToken.token =
      (.notFound, (revokeToken fixtureAfter fixtureToken.token).2) :=
  ⟨by decide,
    revokeToken_idempotent fixtureAfter fixtureToken.token (by decide)
      (by decide) (by decide)⟩

/-! ## Refresh rotation (C3) -/

theorem findByRefresh_eq_none_iff (l : List (Tok × AccessToken)) (rt : String) :
    findByRefresh l rt = none ↔ ∀ e ∈ l, e.2.refreshToken ≠ some rt := by
  induction l with
  | nil => simp [findByRefresh]
  | cons e rest ih =>
    by_cases hm : e.2.refreshToken = some rt <;>
      simp [findByRefresh, hm, ih]

theorem findByRefresh_unique (l : List (Tok × AccessToken)) (rt : String)
    (k : Tok) (data : AccessToken)
    (hrefresh : (l.filterMap fun e => e.2.refreshToken).Nodup)
    (h : findByRefresh l rt = some (k, data)) :
    ∀ e ∈ l, e.2.refreshToken = some rt → e = (k, data) := by
  induction l with
  | nil => simp [findByRefresh] at h
  | cons e0 rest ih =>
    by_cases hm : e0.2.refreshToken = some rt
    · simp only [findByRefresh, hm, if_pos, Option.some.injEq] at h
      intro x hx hxr
      rcases List.mem_cons.mp hx with rfl | hx_rest
      · rw [← h]
      · exfalso
        have hnotin : rt ∉ rest.filterMap fun y => y.2.refreshToken := by
          rw [List.filterMap_cons, hm] at hrefresh
          exact (List.nodup_cons.mp hrefresh).1
        exact hnotin (List.mem_filterMap.mpr ⟨x, hx_rest, hxr⟩)
    · simp only [findByRefresh, hm, if_neg, not_false_iff] at h
      intro x hx hxr
      rcases List.mem_cons.mp hx with rfl | hx_rest
      · exact absurd hxr hm
      · refine ih ?_ h x hx_rest hxr
        rw [List.filterMap_cons] at hrefresh
        cases hr : e0.2.refreshToken with
        | none => rwa [hr] at hrefresh
        | some r =>
          rw [hr] at hrefresh
          exact (List.nodup_cons.mp hrefresh).2

theorem findByRefresh_of_unique (l : List (Tok × AccessToken)) (rt : String)
    (x : Tok × AccessToken) (hx : x ∈ l) (hm : x.2.refreshToken = some rt)
    (huniq : ∀ e ∈ l, e.2.refreshToken = some rt → e = x) :
    findByRefresh l rt = some x := by
  induction l with
  | nil => simp at hx
  | cons e0 rest ih =>
    by_cases hm0 : e0.2.refreshToken = some rt
    · have he0 : e0 = x := huniq e0 (by simp) hm0
      subst he0
      simp [findByRefresh, hm0]
    · have hx_rest : x ∈ rest := by
        rcases List.mem_cons.mp hx with rfl | hr
        · exact absurd hm hm0
        · exact hr
      simp only [findByRefresh, hm0, if_neg, not_false_iff]
      exact ih hx_rest fun e he her => huniq e (by simp [he]) her

theorem refreshGrant_found (s : ServerState) (now : Nat) (fr rt : String)
    (k : Tok) (data : AccessToken)
    (h : findByRefresh s.accessTokens rt = some (k, data))
    (hexp : ¬ data.expiresAt < now) :
    refreshGrant s now fr rt =
      (RefreshResult.success
          (generateAccessToken { s with accessTokens := mapDelete s.accessTokens k }
            now fr data.clientId data.userId data.scopes).1,
        (generateAccessToken { s with accessTokens := mapDelete s.accessTokens k }
          now fr data.clientId data.userId data.scopes).2) := by
  simp [refreshGrant, h, hexp]

/-- C3 (the refresh operation is absent from the source and modelled from the
spec, see `refreshGrant`): refreshing with an unknown refresh token fails
with `invalid_grant`; refreshing with a stored but expired one fails with
`invalid_grant`; a valid refresh succeeds, issues a brand-new access+refresh
pair carrying the fresh refresh string, and rotates: presenting the original
refresh token again afterwards fails with `invalid_grant` at any time, while
presenting the newly issued refresh token next succeeds.  The store is
assumed to hold pairwise-distinct refresh-token values and the fresh refresh
string to be genuinely fresh, as `crypto.randomBytes` output is. -/
theorem refreshGrant_rotation (s : ServerState) (now : Nat) (fr rt : String)
    (hrefresh : (s.accessTokens.filterMap fun e => e.2.refreshToken).Nodup)
    (hfr_fresh : ∀ e ∈ s.accessTokens, e.2.refreshToken ≠ some fr)
    (hfr_ne : fr ≠ rt) :
    (findByRefresh s.accessTokens rt = none →
      refreshGrant s now fr rt = (.errInvalidGrant, s)) ∧
    (∀ k data, findByRefresh s.accessTokens rt = some (k, data) →
      data.expiresAt < now →
      refreshGrant s now fr rt = (.errInvalidGrant, s)) ∧
    (∀ k data, findByRefresh s.accessTokens rt = some (k, data) →
      ¬ data.expiresAt < now →
      ∃ td s1, refreshGrant s now fr rt = (.success td, s1) ∧
        td.refreshToken = some fr ∧
        (∀ (now2 : Nat) (fr2 : String),
          refreshGrant s1 now2 fr2 rt = (.errInvalidGrant, s1)) ∧
        (∀ fr2, ∃ td2 s2, refreshGrant s1 now fr2 fr = (.success td2, s2))) := by
  refine ⟨fun h => by simp [refreshGrant, h],
    fun k data h hexp => by simp [refreshGrant, h, hexp],
    fun k data h hexp => ?_⟩
  have hgen := refreshGrant_found s now fr rt k data h hexp
  refine ⟨_, _, hgen, rfl, ?_, ?_⟩
  · intro now2 fr2
    have hnone :
        findByRefresh (generateAccessToken
            { s with accessTokens := mapDelete s.accessTokens k }
            now fr data.clientId data.userId data.scopes).2.accessTokens rt =
          none := by
      rw [findByRefresh_eq_none_iff]
      intro e he
      rcases mem_mapSet _ _ _ _ he with heq | hmem
      · rw [heq]
        simp only [ne_eq, Option.some.injEq]
        exact fun hc => hfr_ne hc
      · have he2 : e ∈ s.accessTokens := List.mem_of_mem_filter hmem
        have hne_k : e.1 ≠ k := by
          simpa using (List.mem_filter.mp hmem).2
        intro hcontra
        have := findByRefresh_unique _ _ _ _ hrefresh h e he2 hcontra
        exact hne_k (congrArg Prod.fst this)
    simp [refreshGrant, hnone]
  · intro fr2
    have huniq : ∀ e ∈ (generateAccessToken
          { s with accessTokens := mapDelete s.accessTokens k }
          now fr data.clientId data.userId data.scopes).2.accessTokens,
        e.2.refreshToken = some fr →
        e = ((generateAccessToken
            { s with accessTokens := mapDelete s.accessTokens k }
            now fr data.clientId data.userId data.scopes).1.token,
          (generateAccessToken
            { s with accessTokens := mapDelete s.accessTokens k }
            now fr data.clientId data.userId data.scopes).1) := by
      intro e he hrf
      rcases mem_mapSet _ _ _ _ he with heq | hmem
      · exact heq
      · exact absurd hrf (hfr_fresh e (List.mem_of_mem_filter hmem))
    have hfind := findByRefresh_of_unique
      (generateAccessToken { s with accessTokens := mapDelete s.accessTokens k }
        now fr data.clientId data.userId data.scopes).2.accessTokens fr
      _ (mem_mapSet_self _ _ _) rfl huniq
    have hexp2 : ¬ (generateAccessToken
        { s with accessTokens := mapDelete s.accessTokens k }
        now fr data.clientId data.userId data.scopes).1.expiresAt < now := by
      simp [generateAccessToken]
    exact ⟨_, _, refreshGrant_found _ now fr2 fr _ _ hfind hexp2⟩

theorem refreshGrant_rotation_witness :
    refreshGrant (refreshGrant fixtureAfter 0 "r9" "r1").2 1 "r10" "r1" =
      (.errInvalidGrant, (refreshGrant fixtureAfter 0 "r9" "r1").2) ∧
    (refreshGrant (refreshGrant fixtureAfter 0 "r9" "r1").2 0 "r10" "r9").1 ≠
      .errInvalidGrant := by
  obtain ⟨td, s1, heq, hrf, hrot, hnew⟩ :=
    (refreshGrant_rotation fixtureAfter 0 "r9" "r1" (by decide) (by decide)
      (by decide)).2.2 fixtureToken.token fixtureToken (by decide) (by decide)
  constructor
  · rw [heq]
    simpa using hrot 1 "r10"
  · rw [heq]
    obtain ⟨td2, s2, heq2⟩ := hnew "r10"
    simp only [heq2]
    simp

/-- Sanity of the SHA-256 and base64url embedding: the RFC 7636 appendix-B
test vector, evaluated in the kernel. -/
theorem sha256Base64url_rfc7636_vector :
    sha256Base64url "dBjftJeZ4CVP-mB92K27uhbUJU1p1r_wW1gFWFOEjXk" =
      "E9Melhoa2OwvFrEMTJguCHaoeK1t8URWbuGJSstw-cM" := by decide

end OAuthServer
